import Mathlib

/-!
# EaselJS core — shallow embedding and verification

A shallow embedding of the EaselJS core subsystems that the specification
describes: the frame scheduler (`src/src/utils/Ticker.js`), the deferred
vector-graphics command buffer (`src/src/display/Graphics.js`), the stage
pointer-interaction logic (`Stage.prototype._handleMouseDown` /
`_handleMouseUp` / `_handleMouseMove` / `_updateMousePosition`), and the
color-matrix pixel filter (`src/src/filters/ColorMatrixFilter.js`).

JavaScript objects are identified by `Nat` ids; nullable references are
`Option`; the platform clock is passed explicitly (`now : Int`) where the
source calls `new Date().getTime()`; callback invocations are returned as
explicit call traces so that dispatch behaviour can be stated as data.
-/

set_option maxRecDepth 8192

namespace EaselJS

/-! ## Frame scheduler — `src/src/utils/Ticker.js`

The Ticker is a static singleton; its module-level mutable state is the
record below.  Field names drop the `_` prefix of the JS properties:
`listeners ~ Ticker._listeners`, `pauseable ~ Ticker._pauseable`, etc.
A listener is a JS object reference, modelled as `Option Nat` (`none` is
the JS `null`); whether an object exposes a `.tick` method is an oracle
`hasTick : Nat → Bool` passed to `tick`. -/

structure TickerState where
  listeners : List (Option Nat)
  pauseable : List Bool
  paused : Bool
  inited : Bool
  startTime : Int
  pausedTime : Int
  ticks : Int
  pausedTickers : Int
  lastTime : Int
  times : List Int
  deriving DecidableEq

namespace Ticker

/-- The initial module-level state of `Ticker` (all counters zero, lists
empty, as in the property declarations of Ticker.js). -/
def init : TickerState :=
  { listeners := [], pauseable := [], paused := false, inited := false,
    startTime := 0, pausedTime := 0, ticks := 0, pausedTickers := 0,
    lastTime := 0, times := [] }

/-- Models `Ticker.removeListener(o)`: find the first index of `o` in `_listeners`
(JS `indexOf`); if present, splice it out of both parallel lists. -/
def removeListener (o : Option Nat) (s : TickerState) : TickerState :=
  match s.listeners.findIdx? (fun x => x == o) with
  | none => s
  | some index =>
      { s with listeners := s.listeners.eraseIdx index,
               pauseable := s.pauseable.eraseIdx index }

/-- JS array assignment `arr[i] = v` on a `List Bool`: in-range indices are
overwritten; past-the-end assignment pads with holes (read back as falsy,
hence `false`) and appends. -/
def setFlagAt (l : List Bool) (i : Nat) (v : Bool) : List Bool :=
  if i < l.length then l.set i v
  else l ++ List.replicate (i - l.length) false ++ [v]

/-- Models `Ticker.addListener(o, opt_pauseable)`: arm the frame loop on first use
(`_inited`), remove any prior registration of `o`, then store the flag at
index `_listeners.length` of `_pauseable` and push `o`.
The flag is the JS truthiness test `opt_pauseable ? true : false`: an
omitted argument (`none`) yields `false`. -/
def addListener (o : Option Nat) (optPauseable : Option Bool) (s : TickerState) :
    TickerState :=
  let s := if !s.inited then { s with inited := true } else s
  let s := removeListener o s
  { s with pauseable := setFlagAt s.pauseable s.listeners.length (optPauseable.getD false),
           listeners := s.listeners ++ [o] }

/-- Models `Ticker.removeAllListeners()`. -/
def removeAllListeners (s : TickerState) : TickerState :=
  { s with listeners := [], pauseable := [] }

/-- Models `Ticker.setPaused(value)`. -/
def setPaused (value : Bool) (s : TickerState) : TickerState :=
  { s with paused := value }

/-- Models `Ticker.getPaused()`. -/
def getPaused (s : TickerState) : Bool :=
  s.paused

/-- Models `Ticker.getTime(pauseable)`: `_getTime() - _startTime -
(pauseable ? _pausedTime : 0)`, with the platform clock passed as `now`. -/
def getTime (pauseable : Bool) (now : Int) (s : TickerState) : Int :=
  now - s.startTime - (if pauseable then s.pausedTime else 0)

/-- Models `Ticker.getTicks(pauseable)`: `_ticks - (pauseable ? _pausedTickers : 0)`. -/
def getTicks (pauseable : Bool) (s : TickerState) : Int :=
  s.ticks - (if pauseable then s.pausedTickers else 0)

/-- The listener-iteration loop of `Ticker._tick`, over a snapshot of the
listener list: index `i` is skipped when the listener is `null`, when the
Ticker is paused and the parallel flag is set, or when the listener has no
`tick` method; otherwise `listener.tick(elapsedTime)` is invoked.  The
returned list is the sequence of performed invocations
`(listener, elapsedTime)`. -/
def tickCalls (hasTick : Nat → Bool) (paused : Bool) (listeners : List (Option Nat))
    (pauseableFlags : List Bool) (elapsedTime : Int) : List (Nat × Int) :=
  (List.range listeners.length).filterMap fun i =>
    let p := pauseableFlags.getD i false
    match listeners.getD i none with
    | none => none
    | some o => if (paused && p) || !hasTick o then none else some (o, elapsedTime)

/-- Models `Ticker._tick()` at platform time `now`: re-request the frame (not
modelled beyond the perpetual loop), increment `_ticks`, compute
`time = getTime(false)` and the elapsed delta, accumulate the paused
counters when paused, update `_lastTime`, run the listener loop over a
snapshot, then unshift `time` onto the bounded `_times` buffer (capacity
100).  Returns the new state and the performed tick invocations. -/
def tick (hasTick : Nat → Bool) (now : Int) (s : TickerState) :
    TickerState × List (Nat × Int) :=
  let ticks := s.ticks + 1
  let time := getTime false now s
  let elapsedTime := time - s.lastTime
  let paused := s.paused
  let pausedTickers := if paused then s.pausedTickers + 1 else s.pausedTickers
  let pausedTime := if paused then s.pausedTime + elapsedTime else s.pausedTime
  let calls := tickCalls hasTick paused s.listeners s.pauseable elapsedTime
  let times := time :: s.times
  let times := if 100 < times.length then times.dropLast else times
  ({ s with ticks := ticks, pausedTickers := pausedTickers, pausedTime := pausedTime,
            lastTime := time, times := times }, calls)

/-- The `ticks || 5` default of `Ticker.getMeasuredFPS`: a missing or zero sample-count
argument defaults to 5. -/
def effectiveTicks (ticksArg : Option Nat) : Nat :=
  match ticksArg with
  | none => 5
  | some k => if k = 0 then 5 else k

/-- Models `Ticker.getMeasuredFPS(ticks)`: `-1` with fewer than two recorded
times; else `1000 / ((_times[0] - _times[n]) / n)` where
`n = min(_times.length - 1, ticks || 5)` (`_times` is newest-first). -/
def getMeasuredFPS (ticksArg : Option Nat) (s : TickerState) : ℚ :=
  if s.times.length < 2 then -1
  else
    let t := min (s.times.length - 1) (effectiveTicks ticksArg)
    1000 / ((((s.times.getD 0 0 : Int) : ℚ) - ((s.times.getD t 0 : Int) : ℚ)) / (t : ℚ))

/-- The specification's reading of the FPS formula: the arithmetic mean of
the `n` most recent inter-frame intervals of the (newest-first) sample
buffer. -/
def meanInterval (n : Nat) (times : List Int) : ℚ :=
  (((List.range n).map fun i =>
      ((times.getD i 0 : Int) : ℚ) - ((times.getD (i + 1) 0 : Int) : ℚ)).sum) / (n : ℚ)

end Ticker

/-! ## Deferred vector-graphics command buffer — `src/src/display/Graphics.js`

A `Graphics.Command` pairs a context-2D function with captured arguments;
we embed it as a tagged instruction.  The three shared static commands
(`Graphics.beginCmd`, `Graphics.fillCmd`, `Graphics.strokeCmd`) are the
first three constructors; `ctxOp` is a command calling a context method
(`moveTo`, `lineTo`, `arc`, ...) with its arguments; `setProp` is a
command built from `Graphics.prototype._setProp`. -/

/-- A canvas fill/stroke style value: a CSS color string, a gradient built
with `createLinearGradient`/`createRadialGradient` plus its color stops,
or a pattern from `createPattern`. -/
inductive StyleVal
  | css (color : String)
  | linearGradient (stops : List (ℚ × String)) (x0 y0 x1 y1 : ℚ)
  | radialGradient (stops : List (ℚ × String)) (x0 y0 r0 x1 y1 r1 : ℚ)
  | bitmapPattern (image : Nat) (repetition : String)
  deriving DecidableEq

/-- A JavaScript value as stored in a command's captured arguments. -/
inductive JVal
  | s (v : String)
  | n (v : ℚ)
  | b (v : Bool)
  | style (v : StyleVal)
  | undef
  deriving DecidableEq

/-- One deferred drawing instruction (`Graphics.Command`). -/
inductive Command
  | beginCmd
  | fillCmd
  | strokeCmd
  | ctxOp (name : String) (params : List JVal)
  | setProp (name : String) (value : JVal)
  deriving DecidableEq

/-- The mutable state of a `Graphics` instance.  Field names drop the `_`
prefix of the JS properties (`instructions ~ this._instructions`, etc.). -/
structure Graphics where
  instructions : List Command
  oldInstructions : List Command
  activeInstructions : List Command
  fillInstructions : Option (List Command)
  strokeInstructions : Option (List Command)
  strokeStyleInstructions : Option (List Command)
  active : Bool
  dirty : Bool
  deriving DecidableEq

namespace Graphics

/-- Models `Graphics.STROKE_CAPS_MAP`. -/
def STROKE_CAPS_MAP : List String := ["butt", "round", "square"]

/-- Models `Graphics.STROKE_JOINTS_MAP`. -/
def STROKE_JOINTS_MAP : List String := ["miter", "round", "bevel"]

/-- The state established by `Graphics.prototype.clear` (also the state of
a fresh instance, whose constructor calls `this.clear()`). -/
def empty : Graphics :=
  { instructions := [], oldInstructions := [], activeInstructions := [],
    strokeStyleInstructions := none, strokeInstructions := none, fillInstructions := none,
    active := false, dirty := false }

/-- Models `Graphics.prototype.clear`. -/
def clear (_g : Graphics) : Graphics := empty

/-- Models `Graphics.prototype.moveTo` (note: the source does not set `_dirty` or
`_active` here). -/
def moveTo (x y : ℚ) (g : Graphics) : Graphics :=
  { g with activeInstructions := g.activeInstructions ++ [.ctxOp "moveTo" [.n x, .n y]] }

/-- Models `Graphics.prototype.lineTo`. -/
def lineTo (x y : ℚ) (g : Graphics) : Graphics :=
  { g with dirty := true, active := true,
           activeInstructions := g.activeInstructions ++ [.ctxOp "lineTo" [.n x, .n y]] }

/-- Models `Graphics.prototype.arcTo`. -/
def arcTo (x1 y1 x2 y2 radius : ℚ) (g : Graphics) : Graphics :=
  { g with dirty := true, active := true,
           activeInstructions := g.activeInstructions ++
             [.ctxOp "arcTo" [.n x1, .n y1, .n x2, .n y2, .n radius]] }

/-- Models `Graphics.prototype.arc` (a `null` anticlockwise argument defaults to
`false`). -/
def arc (x y radius startAngle endAngle : ℚ) (anticlockwise : Option Bool)
    (g : Graphics) : Graphics :=
  { g with dirty := true, active := true,
           activeInstructions := g.activeInstructions ++
             [.ctxOp "arc" [.n x, .n y, .n radius, .n startAngle, .n endAngle,
                            .b (anticlockwise.getD false)]] }

/-- Models `Graphics.prototype.quadraticCurveTo`. -/
def quadraticCurveTo (cpx cpy x y : ℚ) (g : Graphics) : Graphics :=
  { g with dirty := true, active := true,
           activeInstructions := g.activeInstructions ++
             [.ctxOp "quadraticCurveTo" [.n cpx, .n cpy, .n x, .n y]] }

/-- Models `Graphics.prototype.bezierCurveTo`. -/
def bezierCurveTo (cp1x cp1y cp2x cp2y x y : ℚ) (g : Graphics) : Graphics :=
  { g with dirty := true, active := true,
           activeInstructions := g.activeInstructions ++
             [.ctxOp "bezierCurveTo" [.n cp1x, .n cp1y, .n cp2x, .n cp2y, .n x, .n y]] }

/-- Models `Graphics.prototype.rect`. -/
def rect (x y w h : ℚ) (g : Graphics) : Graphics :=
  { g with dirty := true, active := true,
           activeInstructions := g.activeInstructions ++
             [.ctxOp "rect" [.n x, .n y, .n w, .n h]] }

/-- Models `Graphics.prototype.closePath`. -/
def closePath (g : Graphics) : Graphics :=
  if g.active then
    { g with dirty := true,
             activeInstructions := g.activeInstructions ++ [.ctxOp "closePath" []] }
  else g

/-- The fill-style commands pushed by `_updateInstructions`
(`if (this._fillInstructions) push.apply(_fillInstructions)`). -/
def fillBlock (g : Graphics) : List Command :=
  g.fillInstructions.getD []

/-- The stroke commands pushed by `_updateInstructions`: the stroke color
command, then — only when a stroke color is set — the line-style commands
(`if (_strokeInstructions) { push.apply(_strokeInstructions);
if (_strokeStyleInstructions) push.apply(_strokeStyleInstructions) }`). -/
def strokeBlock (g : Graphics) : List Command :=
  match g.strokeInstructions with
  | some si => si ++ g.strokeStyleInstructions.getD []
  | none => []

/-- The fill/stroke execution commands pushed at the tail of
`_updateInstructions`. -/
def execBlock (g : Graphics) : List Command :=
  (if g.fillInstructions.isSome then [Command.fillCmd] else []) ++
  (if g.strokeInstructions.isSome then [Command.strokeCmd] else [])

/-- Models `Graphics.prototype._updateInstructions`: rebuild `_instructions` as
the committed list (`_oldInstructions.slice()`), then `beginCmd`, then the
fill-style commands, then the stroke commands, then the active
instructions, then the fill and stroke execution commands — the exact push
sequence of the source. -/
def updateInstructions (g : Graphics) : Graphics :=
  { g with instructions :=
      g.oldInstructions ++ [Command.beginCmd] ++ fillBlock g ++ strokeBlock g ++
        g.activeInstructions ++ execBlock g }

/-- Models `Graphics.prototype._newPath`: relinearize if dirty, commit the merged
list, and reset the active list and the `_active`/`_dirty` flags. -/
def newPath (g : Graphics) : Graphics :=
  let g := if g.dirty then updateInstructions g else g
  { g with oldInstructions := g.instructions, activeInstructions := [],
           active := false, dirty := false }

/-- Models `Graphics.prototype.beginFill(color)`: close the current subpath if
one is open, then install the fill-style command.  The JS truthiness test
`color ? [...] : null` makes both `null` and the empty string clear the
fill. -/
def beginFill (color : Option String) (g : Graphics) : Graphics :=
  let g := if g.active then newPath g else g
  { g with fillInstructions :=
      match color with
      | some c => if c = "" then none else some [.setProp "fillStyle" (.s c)]
      | none => none }

/-- Models `Graphics.prototype.beginLinearGradientFill`. -/
def beginLinearGradientFill (colors : List String) (ratios : List ℚ)
    (x0 y0 x1 y1 : ℚ) (g : Graphics) : Graphics :=
  let g := if g.active then newPath g else g
  let stops := (List.range colors.length).map fun i => (ratios.getD i 0, colors.getD i "")
  { g with fillInstructions :=
      (some [.setProp "fillStyle" (.style (.linearGradient stops x0 y0 x1 y1))]) }

/-- Models `Graphics.prototype.beginRadialGradientFill`. -/
def beginRadialGradientFill (colors : List String) (ratios : List ℚ)
    (x0 y0 r0 x1 y1 r1 : ℚ) (g : Graphics) : Graphics :=
  let g := if g.active then newPath g else g
  let stops := (List.range colors.length).map fun i => (ratios.getD i 0, colors.getD i "")
  { g with fillInstructions :=
      (some [.setProp "fillStyle" (.style (.radialGradient stops x0 y0 r0 x1 y1 r1))]) }

/-- Models `Graphics.prototype.beginBitmapFill` (`repetition = repetition || ''`). -/
def beginBitmapFill (image : Nat) (repetition : Option String) (g : Graphics) : Graphics :=
  let g := if g.active then newPath g else g
  let rep := match repetition with
    | some r => if r = "" then "" else r
    | none => ""
  { g with fillInstructions :=
      (some [.setProp "fillStyle" (.style (.bitmapPattern image rep))]) }

/-- Models `Graphics.prototype.endFill`: `beginFill(null)`. -/
def endFill (g : Graphics) : Graphics :=
  beginFill none g

/-- Models `Graphics.prototype.setStrokeStyle(thickness, caps, joints, miterLimit)`:
close the current subpath if open, then install the four line-style
commands with the source's defaulting (`null` thickness → the string "1",
numeric caps/joints mapped through `STROKE_CAPS_MAP`/`STROKE_JOINTS_MAP`,
string values passed through, `null` miterLimit → the string "10"). -/
def setStrokeStyle (thickness : Option ℚ) (caps joints : Option (Nat ⊕ String))
    (miterLimit : Option ℚ) (g : Graphics) : Graphics :=
  let g := if g.active then newPath g else g
  { g with strokeStyleInstructions := (some
      [.setProp "lineWidth" (match thickness with | none => .s "1" | some t => .n t),
       .setProp "lineCap"
         (match caps with
          | none => .s "butt"
          | some (.inl k) =>
              match STROKE_CAPS_MAP.get? k with
              | some c => .s c
              | none => .undef
          | some (.inr c) => .s c),
       .setProp "lineJoin"
         (match joints with
          | none => .s "miter"
          | some (.inl k) =>
              match STROKE_JOINTS_MAP.get? k with
              | some j => .s j
              | none => .undef
          | some (.inr j) => .s j),
       .setProp "miterLimit" (match miterLimit with | none => .s "10" | some m => .n m)]) }

/-- Models `Graphics.prototype.beginStroke(color)`. -/
def beginStroke (color : Option String) (g : Graphics) : Graphics :=
  let g := if g.active then newPath g else g
  { g with strokeInstructions :=
      match color with
      | some c => if c = "" then none else some [.setProp "strokeStyle" (.s c)]
      | none => none }

/-- Models `Graphics.prototype.beginLinearGradientStroke`. -/
def beginLinearGradientStroke (colors : List String) (ratios : List ℚ)
    (x0 y0 x1 y1 : ℚ) (g : Graphics) : Graphics :=
  let g := if g.active then newPath g else g
  let stops := (List.range colors.length).map fun i => (ratios.getD i 0, colors.getD i "")
  { g with strokeInstructions :=
      (some [.setProp "strokeStyle" (.style (.linearGradient stops x0 y0 x1 y1))]) }

/-- Models `Graphics.prototype.beginRadialGradientStroke`. -/
def beginRadialGradientStroke (colors : List String) (ratios : List ℚ)
    (x0 y0 r0 x1 y1 r1 : ℚ) (g : Graphics) : Graphics :=
  let g := if g.active then newPath g else g
  let stops := (List.range colors.length).map fun i => (ratios.getD i 0, colors.getD i "")
  { g with strokeInstructions :=
      (some [.setProp "strokeStyle" (.style (.radialGradient stops x0 y0 r0 x1 y1 r1))]) }

/-- Models `Graphics.prototype.beginBitmapStroke`. -/
def beginBitmapStroke (image : Nat) (repetition : Option String) (g : Graphics) : Graphics :=
  let g := if g.active then newPath g else g
  let rep := match repetition with
    | some r => if r = "" then "" else r
    | none => ""
  { g with strokeInstructions :=
      (some [.setProp "strokeStyle" (.style (.bitmapPattern image rep))]) }

/-- Models `Graphics.prototype.endStroke`: `beginStroke(null)`. -/
def endStroke (g : Graphics) : Graphics :=
  beginStroke none g

/-- Models `Graphics.prototype.draw(ctx)`: relinearize if dirty, then execute
every command of `_instructions` against the context.  The second
component is the executed command sequence; note that the source never
clears `_dirty` here. -/
def draw (g : Graphics) : Graphics × List Command :=
  let g := if g.dirty then updateInstructions g else g
  (g, g.instructions)

/-- The merged list in the order the claim states it: begin-path first,
then fill styles, then stroke styles, then the committed and active
geometry concatenated, then the fill/stroke execution commands.  (Spec
wording, for comparison against `updateInstructions`.) -/
def specClaimedMergedList (g : Graphics) : List Command :=
  [Command.beginCmd] ++ fillBlock g ++ strokeBlock g ++
    (g.oldInstructions ++ g.activeInstructions) ++ execBlock g

/-- A `lineTo` geometry command recorded after a style cut, as data. -/
def lineCmd (p : ℚ × ℚ) : Command :=
  .ctxOp "lineTo" [.n p.1, .n p.2]

/-- Record a sequence of `lineTo` calls. -/
def recordLines (ps : List (ℚ × ℚ)) (g : Graphics) : Graphics :=
  ps.foldl (fun a p => lineTo p.1 p.2 a) g

/-- What "closing the current subpath" amounts to, relative to the state
`g` at the cut point: the active list is emptied, the active flag is
reset, and the committed list becomes the relinearized merged list, in
which the old committed list is a prefix and the cut subpath's active
instructions follow it (wrapped with that subpath's style and execution
commands). -/
def closesTo (g gAfter : Graphics) : Prop :=
  gAfter.activeInstructions = [] ∧ gAfter.active = false ∧
  gAfter.oldInstructions =
    g.oldInstructions ++ [Command.beginCmd] ++ fillBlock g ++ strokeBlock g ++
      g.activeInstructions ++ execBlock g

end Graphics

/-! ## Stage pointer interaction — `Stage.prototype` handlers

The hit-test `_getObjectsUnderPoint` lives on `Container` (an external
collaborator of these handlers); it is passed as an oracle: the display
object (`Nat` id) returned for the current pointer position, or `none`.
Whether a target exposes `onPress`/`onClick`, and which transient handlers
an `onPress` handler attaches onto its event object, are oracles as well.
Handler invocations are returned as an ordered `Call` trace. -/

/-- An `EaselMouseEvent` object as stored by `_handleMouseDown`: its object
identity and whether the press handler attached `onMouseMove` /
`onMouseUp` callbacks onto it. -/
structure MEvt where
  id : Nat
  onMouseMove : Bool
  onMouseUp : Bool
  deriving DecidableEq

/-- One observable handler invocation made by the stage handlers. -/
inductive Call
  | stageMouseDown
  | stageMouseUp
  | stageMouseMove
  | press (target : Nat)
  | transientMove (evtId : Nat)
  | transientUp (evtId : Nat)
  | click (target : Nat)
  deriving DecidableEq

/-- The stage fields the pointer handlers touch.  `onMouseDown` /
`onMouseUp` / `onMouseMove` record whether a stage-level callback is
attached.  `activeEaselMouseEvent ~ this._activeEaselMouseEvent` (the
property `_handleMouseDown` assigns) and `activeMouseEvent ~
this._activeMouseEvent` (the distinct property `_handleMouseUp` reads and
clears) are modelled as the two separate fields they are in the source. -/
structure StageState where
  hasCanvas : Bool
  canvasWidth : Int
  canvasHeight : Int
  mouseX : Option Int
  mouseY : Option Int
  mouseInBounds : Bool
  onMouseDown : Bool
  onMouseUp : Bool
  onMouseMove : Bool
  activeEaselMouseEvent : Option MEvt
  activeMouseEvent : Option MEvt
  activeMouseTarget : Option Nat
  deriving DecidableEq

namespace Stage

/-- The do/while loop of `_updateMousePosition`: subtract the
`offsetLeft`/`offsetTop` of the canvas and of each `offsetParent` from the
page coordinates.  `offsets` is the offset chain, canvas first. -/
def localPoint (offsets : List (Int × Int)) (pageX pageY : Int) : Int × Int :=
  offsets.foldl (fun q off => (q.1 - off.1, q.2 - off.2)) (pageX, pageY)

/-- The in-bounds test of `_updateMousePosition`:
`pageX >= 0 && pageY >= 0 && pageX < width && pageY < height`. -/
def inBoundsPoint (s : StageState) (p : Int × Int) : Prop :=
  0 ≤ p.1 ∧ 0 ≤ p.2 ∧ p.1 < s.canvasWidth ∧ p.2 < s.canvasHeight

instance (s : StageState) (p : Int × Int) : Decidable (inBoundsPoint s p) :=
  inferInstanceAs (Decidable (_ ∧ _ ∧ _ ∧ _))

/-- Models `Stage.prototype._updateMousePosition(pageX, pageY)`: compute the
canvas-local point, always store the in-bounds flag, and overwrite
`mouseX`/`mouseY` only when the point is in bounds. -/
def updateMousePosition (offsets : List (Int × Int)) (pageX pageY : Int)
    (s : StageState) : StageState :=
  let p := localPoint offsets pageX pageY
  if inBoundsPoint s p then
    { s with mouseInBounds := true, mouseX := some p.1, mouseY := some p.2 }
  else
    { s with mouseInBounds := false }

/-- Models `Stage.prototype._handleMouseDown(e)`: invoke the stage `onMouseDown`
callback if attached; hit-test (`hit` is the `_getObjectsUnderPoint`
result); if a target was hit and exposes `onPress`, invoke it — the
handler may attach transient callbacks onto the event object (`attach`
gives the attached pair, `eid` the event object's identity), and the event
is stored in `_activeEaselMouseEvent` iff it carries a handler; finally
record the target in `_activeMouseTarget`. -/
def handleMouseDown (hit : Option Nat) (hasPress : Nat → Bool)
    (attach : Nat → Bool × Bool) (eid : Nat) (s : StageState) :
    StageState × List Call :=
  let calls := if s.onMouseDown then [Call.stageMouseDown] else []
  match hit with
  | none => (s, calls)
  | some target =>
      if hasPress target then
        let a := attach target
        let evt : MEvt := ⟨eid, a.1, a.2⟩
        let calls := calls ++ [Call.press target]
        let s := if evt.onMouseMove || evt.onMouseUp then
            { s with activeEaselMouseEvent := some evt }
          else s
        ({ s with activeMouseTarget := some target }, calls)
      else
        ({ s with activeMouseTarget := some target }, calls)

/-- The transient-release step of `_handleMouseUp`:
`if (this._activeMouseEvent && this._activeMouseEvent.onMouseUp)
this._activeMouseEvent.onMouseUp(evt)`. -/
def transientUpCalls (e : Option MEvt) : List Call :=
  match e with
  | some evt => if evt.onMouseUp then [Call.transientUp evt.id] else []
  | none => []

/-- The click step of `_handleMouseUp`: `if (this._activeMouseTarget &&
this._activeMouseTarget.onClick && hitTest == this._activeMouseTarget)
this._activeMouseTarget.onClick(...)`. -/
def clickCalls (hasClick : Nat → Bool) (hitUp : Option Nat)
    (target : Option Nat) : List Call :=
  match target with
  | some t => if hasClick t && (hitUp == some t) then [Call.click t] else []
  | none => []

/-- Models `Stage.prototype._handleMouseUp(e)`: invoke the stage `onMouseUp`
callback if attached; invoke `this._activeMouseEvent.onMouseUp` if
present (note: `_activeMouseEvent`, not `_activeEaselMouseEvent`); if the
pressed target exposes `onClick` and the hit-test at the current mouse
position (`hitUp`) returns that same target, dispatch a click to it; then
null out `_activeMouseEvent` and `_activeMouseTarget`. -/
def handleMouseUp (hitUp : Option Nat) (hasClick : Nat → Bool)
    (s : StageState) : StageState × List Call :=
  let calls := if s.onMouseUp then [Call.stageMouseUp] else []
  let calls := calls ++ transientUpCalls s.activeMouseEvent
  let calls := calls ++ clickCalls hasClick hitUp s.activeMouseTarget
  ({ s with activeMouseEvent := none, activeMouseTarget := none }, calls)

/-- Models `Stage.prototype._handleMouseMove(e)`: bail out (clearing the mouse
position) with no canvas; update the mouse position; return when the
pointer was and stays out of bounds; otherwise invoke the stage
`onMouseMove` callback and then `this._activeEaselMouseEvent.onMouseMove`
if present. -/
def handleMouseMove (offsets : List (Int × Int)) (pageX pageY : Int)
    (s : StageState) : StageState × List Call :=
  if !s.hasCanvas then ({ s with mouseX := none, mouseY := none }, [])
  else
    let inBounds := s.mouseInBounds
    let s := updateMousePosition offsets pageX pageY s
    if !inBounds && !s.mouseInBounds then (s, [])
    else
      let calls := if s.onMouseMove then [Call.stageMouseMove] else []
      let calls := calls ++
        (match s.activeEaselMouseEvent with
         | some evt => if evt.onMouseMove then [Call.transientMove evt.id] else []
         | none => [])
      (s, calls)

end Stage

/-! ## Color-matrix filter — `src/src/filters/ColorMatrixFilter.js` -/

/-- One RGBA pixel of an `ImageData` buffer. -/
abbrev Pixel := ℚ × ℚ × ℚ × ℚ

namespace ColorMatrixFilter

/-- The per-pixel body of the `applyFilter` loop: the 4×5 color matrix
`mtx[0..19]` applied to the four channels.  (The canvas clamps each stored
channel to a byte; the clamp lives in the platform pixel array, outside
this filter's code.) -/
def transformPixel (mtx : List ℚ) (p : Pixel) : Pixel :=
  let m := fun i => mtx.getD i 0
  (p.1 * m 0 + p.2.1 * m 1 + p.2.2.1 * m 2 + p.2.2.2 * m 3 + m 4,
   p.1 * m 5 + p.2.1 * m 6 + p.2.2.1 * m 7 + p.2.2.2 * m 8 + m 9,
   p.1 * m 10 + p.2.1 * m 11 + p.2.2.1 * m 12 + p.2.2.2 * m 13 + m 14,
   p.1 * m 15 + p.2.1 * m 16 + p.2.2.1 * m 17 + p.2.2.2 * m 18 + m 19)

/-- Models `ColorMatrixFilter.prototype.applyFilter`: `getImageData` is the
read-back of the source rectangle — `none` models the platform throwing a
security exception there, which the method's try/catch turns into a
`false` return with no write to the target context.  On a successful
read-back the matrix is applied to every pixel, the result is written via
`putImageData`, and `true` is returned.  The result's second component is
the data written to the target (`none`: the target was never written).
This Lean function is total: no exception escapes `applyFilter`. -/
def applyFilter (mtx : List ℚ) (getImageData : Option (List Pixel)) :
    Bool × Option (List Pixel) :=
  match getImageData with
  | none => (false, none)
  | some data => (true, some (data.map (transformPixel mtx)))

end ColorMatrixFilter

/-! ## Concrete states used to evaluate the definitions -/

/-- A paused Ticker with two registered listeners: index 0 pauseable,
index 1 not pauseable. -/
def tickerPausedEx : TickerState :=
  { listeners := [some 0, some 1], pauseable := [true, false], paused := true,
    inited := true, startTime := 0, pausedTime := 0, ticks := 0, pausedTickers := 0,
    lastTime := 0, times := [] }

/-- A Ticker that has recorded three frame times (newest first). -/
def tickerFpsEx : TickerState :=
  { Ticker.init with times := [30, 20, 10] }

/-- A Ticker after two fires from `init`: one unpaused fire at time 10,
then a paused fire at time 20. -/
def tickerTwoFiresEx : TickerState :=
  (Ticker.tick (fun _ => true) 20
    (Ticker.setPaused true (Ticker.tick (fun _ => true) 10 Ticker.init).1)).1

/-- A Graphics buffer with one open subpath (`lineTo(1,2)` recorded). -/
def gActiveEx : Graphics :=
  Graphics.lineTo 1 2 Graphics.empty

/-- A Graphics buffer with a committed segment and an open subpath:
`lineTo(1,2); beginFill("red"); lineTo(3,4)`. -/
def gOrderEx : Graphics :=
  Graphics.lineTo 3 4 (Graphics.beginFill (some "red") (Graphics.lineTo 1 2 Graphics.empty))

/-- An idle 100×100 stage with the pointer in bounds at (10,10) and no
stage-level callbacks attached. -/
def stageEx : StageState :=
  { hasCanvas := true, canvasWidth := 100, canvasHeight := 100,
    mouseX := some 10, mouseY := some 10, mouseInBounds := true,
    onMouseDown := false, onMouseUp := false, onMouseMove := false,
    activeEaselMouseEvent := none, activeMouseEvent := none, activeMouseTarget := none }

/-- The state `stageEx` after a press on node 1 whose `onPress` handler attaches
both transient handlers onto the press event (event id 1). -/
def stagePressedEx : StageState :=
  (Stage.handleMouseDown (some 1) (fun _ => true) (fun _ => (true, true)) 1 stageEx).1

/-- The native release on `stagePressedEx` (hit-test still node 1, which
has no click handler): the resulting state and invocation trace. -/
def stageReleasedEx : StageState × List Call :=
  Stage.handleMouseUp (some 1) (fun _ => false) stagePressedEx

/-- A second press-release cycle begun after `stageReleasedEx`: a press on
node 2 whose handler attaches nothing. -/
def stageSecondPressEx : StageState :=
  (Stage.handleMouseDown (some 2) (fun _ => false) (fun _ => (false, false)) 2
    stageReleasedEx.1).1

/-! ## Helper lemmas -/

/-- Membership in the listener-loop invocation list: `(o, e)` was invoked
iff some index holds listener `o`, the index is not skipped, and `e` is
the elapsed time passed to the loop. -/
theorem mem_tickCalls_iff {hasTick : Nat → Bool} {paused : Bool}
    {listeners : List (Option Nat)} {flags : List Bool} {el : Int}
    {o : Nat} {e : Int} :
    (o, e) ∈ Ticker.tickCalls hasTick paused listeners flags el ↔
      ∃ i, i < listeners.length ∧ listeners.getD i none = some o ∧
        (paused && flags.getD i false) = false ∧ hasTick o = true ∧ e = el := by
  unfold Ticker.tickCalls
  rw [List.mem_filterMap]
  constructor
  · rintro ⟨i, hi, hf⟩
    rw [List.mem_range] at hi
    refine ⟨i, hi, ?_⟩
    dsimp only at hf
    split at hf
    · cases hf
    · rename_i o' hgd
      by_cases hc : ((paused && flags.getD i false) || !hasTick o') = true
      · rw [if_pos hc] at hf; cases hf
      · rw [if_neg hc] at hf
        injection hf with hf
        injection hf with h1 h2
        subst h1
        simp only [Bool.or_eq_true, Bool.not_eq_true', not_or, Bool.not_eq_true,
          Bool.not_eq_false] at hc
        exact ⟨hgd, hc.1, hc.2, h2.symm⟩
  · rintro ⟨i, hi, hgd, hskip, ht, he⟩
    refine ⟨i, List.mem_range.mpr hi, ?_⟩
    dsimp only
    rw [hgd]
    show (if (paused && flags.getD i false || !hasTick o) = true then (none : Option (Nat × Int))
        else some (o, el)) = some (o, e)
    rw [if_neg (by rw [hskip, ht]; decide), he]

/-- A read `getD i none = some o` at an in-range index determines the optional
element there. -/
theorem getElem?_of_getD {l : List (Option Nat)} {i : Nat} {o : Nat}
    (h : l.getD i none = some o) : l[i]? = some (some o) := by
  rw [List.getD_eq_getElem?_getD] at h
  rcases hg : l[i]? with _ | x
  · rw [hg] at h; cases h
  · rw [hg, Option.getD_some] at h
    exact congrArg some h

/-- Telescoping sum of consecutive differences over `List.range`. -/
theorem sum_range_sub_consec (f : ℕ → ℚ) (n : ℕ) :
    (((List.range n).map fun i => f i - f (i + 1)).sum) = f 0 - f n := by
  induction n with
  | zero => simp
  | succ n ih =>
      rw [List.range_succ, List.map_append, List.sum_append, ih]
      simp only [List.map_cons, List.map_nil, List.sum_cons, List.sum_nil, add_zero]
      ring

/-! ## The claims -/

/-- C1 (code_bug evaluation): after one unpaused fire and one paused fire
the source's `Ticker.getTicks(true)` returns `_ticks - _pausedTickers = 1`
— it excludes the paused fire — and `getTicks(false)` returns `_ticks = 2`
— it includes it.  The claim (and the function's own documentation) state
the opposite polarity. -/
theorem ticker_getTicks_polarity_eval :
    tickerTwoFiresEx.ticks = 2 ∧ tickerTwoFiresEx.pausedTickers = 1 ∧
    Ticker.getTicks true tickerTwoFiresEx = 1 ∧
    Ticker.getTicks false tickerTwoFiresEx = 2 := by
  decide

/-- C3 (code_bug evaluation): `Ticker.addListener(o)` with the pauseable
argument omitted registers `o` exactly once at the tail, is idempotent on
re-registration and raises no fault, but stores `false` — not `true` — as
the pauseable flag (`opt_pauseable ? true : false` on an `undefined`
argument). -/
theorem ticker_addListener_default_flag_eval :
    (Ticker.addListener (some 7) none Ticker.init).listeners = [some 7] ∧
    (Ticker.addListener (some 7) none Ticker.init).pauseable = [false] ∧
    (Ticker.addListener (some 7) none
      (Ticker.addListener (some 7) none Ticker.init)).listeners = [some 7] ∧
    (Ticker.addListener (some 7) none
      (Ticker.addListener (some 7) none Ticker.init)).pauseable = [false] := by
  decide

/-- C7: at a fire of a paused Ticker, a listener registered at an index
whose pauseable flag is `true` receives no tick invocation, and a listener
at an index whose flag is `false` is invoked with the time elapsed since
the previous fire (`t2 - t1` for consecutive fires at platform times `t1`
and `t2`). -/
theorem ticker_tick_pause_semantics (hasTick : Nat → Bool) (t1 t2 : Int)
    (s0 : TickerState) (i o : Nat)
    (hpaused : s0.paused = true) (hnd : s0.listeners.Nodup)
    (hi : i < s0.listeners.length)
    (ho : s0.listeners.getD i none = some o)
    (ht : hasTick o = true) :
    (s0.pauseable.getD i false = true →
      ∀ e : Int, (o, e) ∉ (Ticker.tick hasTick t2 (Ticker.tick hasTick t1 s0).1).2) ∧
    (s0.pauseable.getD i false = false →
      (o, t2 - t1) ∈ (Ticker.tick hasTick t2 (Ticker.tick hasTick t1 s0).1).2) := by
  have hcalls : (Ticker.tick hasTick t2 (Ticker.tick hasTick t1 s0).1).2 =
      Ticker.tickCalls hasTick s0.paused s0.listeners s0.pauseable
        ((t2 - s0.startTime - 0) - (t1 - s0.startTime - 0)) := rfl
  rw [hcalls]
  constructor
  · intro hflag e hmem
    rw [mem_tickCalls_iff] at hmem
    obtain ⟨j, hj, hgd, hskip, _, _⟩ := hmem
    have hij : i = j :=
      List.getElem?_inj hi hnd ((getElem?_of_getD ho).trans (getElem?_of_getD hgd).symm)
    rw [← hij, hpaused, hflag] at hskip
    exact absurd hskip (by decide)
  · intro hflag
    rw [mem_tickCalls_iff]
    exact ⟨i, hi, ho, by rw [hpaused, hflag]; decide, ht, by omega⟩

/-- C7 witness: in the concrete paused Ticker, the non-pauseable listener
`1` is invoked at the second fire with elapsed time `200 - 100 = 100`. -/
theorem ticker_tick_pause_semantics_witness :
    ((1 : Nat), (100 : Int)) ∈
      (Ticker.tick (fun _ => true) 200
        ((Ticker.tick (fun _ => true) 100 tickerPausedEx).1)).2 := by
  have h := (ticker_tick_pause_semantics (fun _ => true) 100 200 tickerPausedEx 1 1
    rfl (by decide) (by decide) (by decide) rfl).2 (by decide)
  exact h

/-- C8: `getMeasuredFPS` returns `-1` with fewer than two recorded frame
times; with at least two it returns 1000 divided by the mean of the last
`n` inter-frame intervals, where `n` is the requested sample count
(defaulted to 5) capped by the number of available intervals. -/
theorem ticker_getMeasuredFPS_spec (ticksArg : Option Nat) (s : TickerState) :
    (s.times.length < 2 → Ticker.getMeasuredFPS ticksArg s = -1) ∧
    (2 ≤ s.times.length →
      Ticker.getMeasuredFPS ticksArg s =
        1000 / Ticker.meanInterval
          (min (s.times.length - 1) (Ticker.effectiveTicks ticksArg)) s.times) := by
  constructor
  · intro h
    unfold Ticker.getMeasuredFPS
    rw [if_pos h]
  · intro h
    unfold Ticker.getMeasuredFPS Ticker.meanInterval
    rw [if_neg (not_lt.mpr h),
      sum_range_sub_consec (fun i => ((s.times.getD i 0 : Int) : ℚ))]

/-- C8 witness: with recorded times `[30, 20, 10]` and a requested sample
count of 2, the code's formula equals 1000 over the mean interval. -/
theorem ticker_getMeasuredFPS_spec_witness :
    Ticker.getMeasuredFPS (some 2) tickerFpsEx =
      1000 / Ticker.meanInterval
        (min (tickerFpsEx.times.length - 1) (Ticker.effectiveTicks (some 2)))
        tickerFpsEx.times :=
  (ticker_getMeasuredFPS_spec (some 2) tickerFpsEx).2 (by decide)

/-- Replaying a dirty buffer executes the freshly rebuilt merged list. -/
theorem draw_dirty_eq (g : Graphics) (h : g.dirty = true) :
    (Graphics.draw g).2 =
      g.oldInstructions ++ [Command.beginCmd] ++ Graphics.fillBlock g ++
        Graphics.strokeBlock g ++ g.activeInstructions ++ Graphics.execBlock g := by
  unfold Graphics.draw
  dsimp only
  rw [if_pos h]
  rfl

/-- Replaying a clean buffer executes the cached merged list and leaves
the state untouched. -/
theorem draw_clean_eq (g : Graphics) (h : g.dirty = false) :
    Graphics.draw g = (g, g.instructions) := by
  unfold Graphics.draw
  dsimp only
  rw [if_neg (by rw [h]; decide)]

/-- Applying `_newPath` on a dirty buffer commits the relinearized merged list and
clears the active list and flag. -/
theorem closesTo_newPath (g : Graphics) (h2 : g.dirty = true) :
    Graphics.closesTo g (Graphics.newPath g) := by
  unfold Graphics.closesTo Graphics.newPath
  dsimp only
  rw [if_pos h2]
  exact ⟨rfl, rfl, rfl⟩

/-- Applying `_newPath` leaves the three style fields unchanged. -/
theorem newPath_preserves (g : Graphics) :
    (Graphics.newPath g).fillInstructions = g.fillInstructions ∧
    (Graphics.newPath g).strokeInstructions = g.strokeInstructions ∧
    (Graphics.newPath g).strokeStyleInstructions = g.strokeStyleInstructions := by
  unfold Graphics.newPath
  dsimp only
  split <;> exact ⟨rfl, rfl, rfl⟩

/-- Recording a run of `lineTo` calls only appends to the active list. -/
theorem recordLines_fields (ps : List (ℚ × ℚ)) (g : Graphics) :
    (Graphics.recordLines ps g).oldInstructions = g.oldInstructions ∧
    (Graphics.recordLines ps g).fillInstructions = g.fillInstructions ∧
    (Graphics.recordLines ps g).strokeInstructions = g.strokeInstructions ∧
    (Graphics.recordLines ps g).strokeStyleInstructions = g.strokeStyleInstructions ∧
    (Graphics.recordLines ps g).activeInstructions =
      g.activeInstructions ++ ps.map Graphics.lineCmd := by
  induction ps generalizing g with
  | nil => exact ⟨rfl, rfl, rfl, rfl, by simp [Graphics.recordLines]⟩
  | cons p ps ih =>
      obtain ⟨o1, o2, o3, o4, o5⟩ := ih (Graphics.lineTo p.1 p.2 g)
      refine ⟨o1, o2, o3, o4, ?_⟩
      have : Graphics.recordLines (p :: ps) g =
          Graphics.recordLines ps (Graphics.lineTo p.1 p.2 g) := rfl
      rw [this, o5]
      show (g.activeInstructions ++ [Graphics.lineCmd p]) ++ ps.map Graphics.lineCmd =
        g.activeInstructions ++ (p :: ps).map Graphics.lineCmd
      simp

/-- Recording `lineTo` calls preserves set dirty/active flags. -/
theorem recordLines_dirty_active (ps : List (ℚ × ℚ)) (g : Graphics)
    (hd : g.dirty = true) (ha : g.active = true) :
    (Graphics.recordLines ps g).dirty = true ∧
    (Graphics.recordLines ps g).active = true := by
  induction ps generalizing g with
  | nil => exact ⟨hd, ha⟩
  | cons p ps ih => exact ih (Graphics.lineTo p.1 p.2 g) rfl rfl

/-- No click event hides in the stage-level mouse-up invocation. -/
theorem noClick_stageUp (b : Bool) (t : Nat) :
    Call.click t ∉ (if b then [Call.stageMouseUp] else []) := by
  split <;> simp

/-- No click event hides in the transient mouse-up invocation. -/
theorem noClick_transientUpCalls (e : Option MEvt) (t : Nat) :
    Call.click t ∉ Stage.transientUpCalls e := by
  rcases e with _ | evt
  · simp [Stage.transientUpCalls]
  · show Call.click t ∉ (if evt.onMouseUp then [Call.transientUp evt.id] else [])
    split <;> simp

/-- Counting the single click at the tail of a release trace. -/
theorem count_click_aux (A B : List Call) (X : Nat)
    (hA : Call.click X ∉ A) (hB : Call.click X ∉ B) :
    ((A ++ B) ++ [Call.click X]).count (Call.click X) = 1 := by
  rw [List.count_append, List.count_append,
    List.count_eq_zero.mpr hA, List.count_eq_zero.mpr hB]
  simp

/-- C4 counterexample: for the buffer `lineTo(1,2); beginFill("red");
lineTo(3,4)` — whose committed list is nonempty — the list `draw` replays
is not the claim's order (begin-path first, then styles, then committed
and active geometry, then execution commands): the source emits the
committed list before the begin-path command. -/
theorem graphics_draw_claimed_order_counterexample :
    (Graphics.draw gOrderEx).2 ≠ Graphics.specClaimedMergedList gOrderEx := by
  decide

/-- C4 (amended): a dirty `draw` rebuilds the merged list as the committed
list, then begin-path, then the fill-style commands, then the stroke
commands, then the active geometry, then the fill/stroke execution
commands; a non-dirty `draw` replays the cached merged list without
rebuilding and leaves the state unchanged. -/
theorem graphics_draw_merged_order (g : Graphics) :
    (g.dirty = true →
      (Graphics.draw g).2 =
        g.oldInstructions ++ [Command.beginCmd] ++ Graphics.fillBlock g ++
          Graphics.strokeBlock g ++ g.activeInstructions ++ Graphics.execBlock g) ∧
    (g.dirty = false → Graphics.draw g = (g, g.instructions)) :=
  ⟨fun h => draw_dirty_eq g h, fun h => draw_clean_eq g h⟩

/-- C4 witness: the amended order evaluated on the dirty concrete buffer
`lineTo(1,2); beginFill("red"); lineTo(3,4)`. -/
theorem graphics_draw_merged_order_witness :
    (Graphics.draw gOrderEx).2 =
      gOrderEx.oldInstructions ++ [Command.beginCmd] ++ Graphics.fillBlock gOrderEx ++
        Graphics.strokeBlock gOrderEx ++ gOrderEx.activeInstructions ++
        Graphics.execBlock gOrderEx :=
  (graphics_draw_merged_order gOrderEx).1 rfl

/-- C6: every style-defining method called while a subpath is open
(active, hence dirty) first closes that subpath — the active instructions
are committed after the old committed list, the active list is emptied,
and the active flag is reset (`Graphics.closesTo`) — and, for geometry
recorded after the cut, a later `draw` replays the new style command after
every instruction committed at the cut and before the post-cut geometry,
so the new style affects only geometry recorded after the cut point. -/
theorem graphics_style_methods_close_subpath (g : Graphics) (c c2 : String)
    (thickness : Option ℚ) (caps joints : Option (Nat ⊕ String)) (miterLimit : Option ℚ)
    (colors : List String) (ratios : List ℚ) (x0 y0 x1 y1 r0 r1 : ℚ) (image : Nat)
    (repetition : Option String)
    (h1 : g.active = true) (h2 : g.dirty = true) (hc : c ≠ "") :
    Graphics.closesTo g (Graphics.beginFill (some c) g) ∧
    Graphics.closesTo g (Graphics.beginStroke (some c2) g) ∧
    Graphics.closesTo g (Graphics.setStrokeStyle thickness caps joints miterLimit g) ∧
    Graphics.closesTo g (Graphics.beginLinearGradientFill colors ratios x0 y0 x1 y1 g) ∧
    Graphics.closesTo g (Graphics.beginRadialGradientFill colors ratios x0 y0 r0 x1 y1 r1 g) ∧
    Graphics.closesTo g (Graphics.beginBitmapFill image repetition g) ∧
    Graphics.closesTo g (Graphics.endFill g) ∧
    Graphics.closesTo g (Graphics.beginLinearGradientStroke colors ratios x0 y0 x1 y1 g) ∧
    Graphics.closesTo g (Graphics.beginRadialGradientStroke colors ratios x0 y0 r0 x1 y1 r1 g) ∧
    Graphics.closesTo g (Graphics.beginBitmapStroke image repetition g) ∧
    Graphics.closesTo g (Graphics.endStroke g) ∧
    (∀ ps : List (ℚ × ℚ), ps ≠ [] →
      (Graphics.draw (Graphics.recordLines ps (Graphics.beginFill (some c) g))).2 =
        (Graphics.beginFill (some c) g).oldInstructions ++ [Command.beginCmd] ++
          [Command.setProp "fillStyle" (JVal.s c)] ++ Graphics.strokeBlock g ++
          ps.map Graphics.lineCmd ++ [Command.fillCmd] ++
          (if g.strokeInstructions.isSome then [Command.strokeCmd] else [])) := by
  have hnp := closesTo_newPath g h2
  have close_of : ∀ gAfter : Graphics,
      gAfter.activeInstructions = (Graphics.newPath g).activeInstructions →
      gAfter.active = (Graphics.newPath g).active →
      gAfter.oldInstructions = (Graphics.newPath g).oldInstructions →
      Graphics.closesTo g gAfter := fun gA hA hB hC =>
    ⟨hA.trans hnp.1, hB.trans hnp.2.1, hC.trans hnp.2.2⟩
  refine ⟨close_of _ (by unfold Graphics.beginFill; dsimp only; rw [if_pos h1])
      (by unfold Graphics.beginFill; dsimp only; rw [if_pos h1])
      (by unfold Graphics.beginFill; dsimp only; rw [if_pos h1]),
    close_of _ (by unfold Graphics.beginStroke; dsimp only; rw [if_pos h1])
      (by unfold Graphics.beginStroke; dsimp only; rw [if_pos h1])
      (by unfold Graphics.beginStroke; dsimp only; rw [if_pos h1]),
    close_of _ (by unfold Graphics.setStrokeStyle; dsimp only; rw [if_pos h1])
      (by unfold Graphics.setStrokeStyle; dsimp only; rw [if_pos h1])
      (by unfold Graphics.setStrokeStyle; dsimp only; rw [if_pos h1]),
    close_of _ (by unfold Graphics.beginLinearGradientFill; dsimp only; rw [if_pos h1])
      (by unfold Graphics.beginLinearGradientFill; dsimp only; rw [if_pos h1])
      (by unfold Graphics.beginLinearGradientFill; dsimp only; rw [if_pos h1]),
    close_of _ (by unfold Graphics.beginRadialGradientFill; dsimp only; rw [if_pos h1])
      (by unfold Graphics.beginRadialGradientFill; dsimp only; rw [if_pos h1])
      (by unfold Graphics.beginRadialGradientFill; dsimp only; rw [if_pos h1]),
    close_of _ (by unfold Graphics.beginBitmapFill; dsimp only; rw [if_pos h1])
      (by unfold Graphics.beginBitmapFill; dsimp only; rw [if_pos h1])
      (by unfold Graphics.beginBitmapFill; dsimp only; rw [if_pos h1]),
    close_of _ (by unfold Graphics.endFill Graphics.beginFill; dsimp only; rw [if_pos h1])
      (by unfold Graphics.endFill Graphics.beginFill; dsimp only; rw [if_pos h1])
      (by unfold Graphics.endFill Graphics.beginFill; dsimp only; rw [if_pos h1]),
    close_of _ (by unfold Graphics.beginLinearGradientStroke; dsimp only; rw [if_pos h1])
      (by unfold Graphics.beginLinearGradientStroke; dsimp only; rw [if_pos h1])
      (by unfold Graphics.beginLinearGradientStroke; dsimp only; rw [if_pos h1]),
    close_of _ (by unfold Graphics.beginRadialGradientStroke; dsimp only; rw [if_pos h1])
      (by unfold Graphics.beginRadialGradientStroke; dsimp only; rw [if_pos h1])
      (by unfold Graphics.beginRadialGradientStroke; dsimp only; rw [if_pos h1]),
    close_of _ (by unfold Graphics.beginBitmapStroke; dsimp only; rw [if_pos h1])
      (by unfold Graphics.beginBitmapStroke; dsimp only; rw [if_pos h1])
      (by unfold Graphics.beginBitmapStroke; dsimp only; rw [if_pos h1]),
    close_of _ (by unfold Graphics.endStroke Graphics.beginStroke; dsimp only; rw [if_pos h1])
      (by unfold Graphics.endStroke Graphics.beginStroke; dsimp only; rw [if_pos h1])
      (by unfold Graphics.endStroke Graphics.beginStroke; dsimp only; rw [if_pos h1]),
    ?_⟩
  intro ps hps
  cases ps with
  | nil => exact absurd rfl hps
  | cons p ps' =>
    obtain ⟨ro, rf, rs, rss, ra⟩ :=
      recordLines_fields (p :: ps') (Graphics.beginFill (some c) g)
    have hstep : Graphics.recordLines (p :: ps') (Graphics.beginFill (some c) g) =
        Graphics.recordLines ps' (Graphics.lineTo p.1 p.2 (Graphics.beginFill (some c) g)) := rfl
    have hdirty : (Graphics.recordLines (p :: ps') (Graphics.beginFill (some c) g)).dirty
        = true := by
      rw [hstep]
      exact (recordLines_dirty_active ps' _ rfl rfl).1
    have hgf : (Graphics.beginFill (some c) g).fillInstructions =
        some [Command.setProp "fillStyle" (JVal.s c)] := by
      show (if c = "" then none else some [Command.setProp "fillStyle" (JVal.s c)]) = _
      rw [if_neg hc]
    have hgs : (Graphics.beginFill (some c) g).strokeInstructions = g.strokeInstructions := by
      show (if g.active = true then Graphics.newPath g else g).strokeInstructions = _
      rw [if_pos h1]
      exact (newPath_preserves g).2.1
    have hgss : (Graphics.beginFill (some c) g).strokeStyleInstructions =
        g.strokeStyleInstructions := by
      show (if g.active = true then Graphics.newPath g else g).strokeStyleInstructions = _
      rw [if_pos h1]
      exact (newPath_preserves g).2.2
    have hact : (Graphics.beginFill (some c) g).activeInstructions = [] := by
      show (if g.active = true then Graphics.newPath g else g).activeInstructions = _
      rw [if_pos h1]
      rfl
    have hfb : Graphics.fillBlock
        (Graphics.recordLines (p :: ps') (Graphics.beginFill (some c) g)) =
        [Command.setProp "fillStyle" (JVal.s c)] := by
      unfold Graphics.fillBlock
      rw [rf, hgf]
      rfl
    have hsb : Graphics.strokeBlock
        (Graphics.recordLines (p :: ps') (Graphics.beginFill (some c) g)) =
        Graphics.strokeBlock g := by
      unfold Graphics.strokeBlock
      rw [rs, rss, hgs, hgss]
    have heb : Graphics.execBlock
        (Graphics.recordLines (p :: ps') (Graphics.beginFill (some c) g)) =
        [Command.fillCmd] ++
          (if g.strokeInstructions.isSome then [Command.strokeCmd] else []) := by
      unfold Graphics.execBlock
      rw [rf, rs, hgf, hgs]
      rfl
    rw [draw_dirty_eq _ hdirty, ro, ra, hact, hfb, hsb, heb]
    simp [List.append_assoc]

/-- C6 witness: `beginFill("red")` on the concrete open-subpath buffer
`lineTo(1,2)` closes the subpath. -/
theorem graphics_style_methods_close_subpath_witness :
    Graphics.closesTo gActiveEx (Graphics.beginFill (some "red") gActiveEx) :=
  (graphics_style_methods_close_subpath gActiveEx "red" "blue" none none none none
    [] [] 0 0 0 0 0 0 0 none rfl rfl (by decide)).1

/-- The release trace is the stage callback, then the transient-release
step, then the click step. -/
theorem handleMouseUp_calls (hitUp : Option Nat) (hasClick : Nat → Bool)
    (s : StageState) :
    (Stage.handleMouseUp hitUp hasClick s).2 =
      ((if s.onMouseUp then [Call.stageMouseUp] else []) ++
        Stage.transientUpCalls s.activeMouseEvent) ++
        Stage.clickCalls hasClick hitUp s.activeMouseTarget := rfl

/-- C5: after a press whose hit-test returned node `X`, a release whose
hit-test returns `X` again dispatches exactly one click to `X` (when `X`
has a click handler), and a release whose hit-test returns a different
node `Y` dispatches no click to any node. -/
theorem stage_click_requires_same_target (s0 : StageState) (X : Nat)
    (hasPress : Nat → Bool) (attach : Nat → Bool × Bool) (eid : Nat)
    (hasClick : Nat → Bool) (r : Option Nat) :
    ((r = some X ∧ hasClick X = true) →
      ((Stage.handleMouseUp r hasClick
          (Stage.handleMouseDown (some X) hasPress attach eid s0).1).2).count
        (Call.click X) = 1) ∧
    (∀ Y, r = some Y → Y ≠ X → ∀ t, Call.click t ∉
      (Stage.handleMouseUp r hasClick
        (Stage.handleMouseDown (some X) hasPress attach eid s0).1).2) := by
  have hTarget : (Stage.handleMouseDown (some X) hasPress attach eid s0).1.activeMouseTarget
      = some X := by
    unfold Stage.handleMouseDown
    dsimp only
    split <;> rfl
  have hEvt : (Stage.handleMouseDown (some X) hasPress attach eid s0).1.activeMouseEvent
      = s0.activeMouseEvent := by
    unfold Stage.handleMouseDown
    dsimp only
    split
    · split <;> rfl
    · rfl
  have hUp : (Stage.handleMouseDown (some X) hasPress attach eid s0).1.onMouseUp
      = s0.onMouseUp := by
    unfold Stage.handleMouseDown
    dsimp only
    split
    · split <;> rfl
    · rfl
  constructor
  · rintro ⟨hr, hck⟩
    subst hr
    rw [handleMouseUp_calls, hTarget, hEvt, hUp]
    have hclick1 : Stage.clickCalls hasClick (some X) (some X) = [Call.click X] := by
      show (if hasClick X && ((some X : Option Nat) == some X) then [Call.click X] else [])
        = [Call.click X]
      rw [hck]
      simp
    rw [hclick1]
    exact count_click_aux _ _ X (noClick_stageUp s0.onMouseUp X)
      (noClick_transientUpCalls s0.activeMouseEvent X)
  · rintro Y hr hne t hmem
    subst hr
    rw [handleMouseUp_calls, hTarget, hEvt, hUp] at hmem
    have hclick2 : Stage.clickCalls hasClick (some Y) (some X) = [] := by
      show (if hasClick X && ((some Y : Option Nat) == some X) then [Call.click X] else [])
        = []
      rw [show ((some Y : Option Nat) == some X) = false from
        beq_eq_false_iff_ne.mpr (fun h => hne (Option.some.inj h)), Bool.and_false]
      rfl
    rw [hclick2, List.append_nil] at hmem
    rcases List.mem_append.mp hmem with h | h
    · exact noClick_stageUp s0.onMouseUp t h
    · exact noClick_transientUpCalls s0.activeMouseEvent t h

/-- C5 witness: press and release both hit-testing node 5 (which has a
click handler) yields exactly one click on node 5. -/
theorem stage_click_requires_same_target_witness :
    ((Stage.handleMouseUp (some 5) (fun _ => true)
        (Stage.handleMouseDown (some 5) (fun _ => false) (fun _ => (false, false)) 0
          stageEx).1).2).count (Call.click 5) = 1 :=
  (stage_click_requires_same_target stageEx 5 (fun _ => false) (fun _ => (false, false)) 0
    (fun _ => true) (some 5)).1 ⟨rfl, rfl⟩

/-- C2 (code_bug evaluation): a press on node 1 attaches both transient
handlers onto press event 1 (stored in `_activeEaselMouseEvent`); the
native release invokes nothing — `_handleMouseUp` reads the never-assigned
`_activeMouseEvent` — and leaves `_activeEaselMouseEvent` in place; in the
next press-release cycle (press on node 2) a mouse move still invokes the
stale transient move handler of event 1.  The claim says the release
handler is invoked and both transient handlers are discarded at release. -/
theorem stage_transient_handler_leak_eval :
    stagePressedEx.activeEaselMouseEvent = some ⟨1, true, true⟩ ∧
    stageReleasedEx.2 = [] ∧
    stageReleasedEx.1.activeEaselMouseEvent = some ⟨1, true, true⟩ ∧
    (Stage.handleMouseMove [(0, 0)] 10 10 stageSecondPressEx).2 =
      [Call.transientMove 1] := by
  decide

/-- C10: `_updateMousePosition` with a computed canvas-local point outside
`[0, width) × [0, height)` leaves `mouseX`/`mouseY` unchanged and only
sets `mouseInBounds` to false; with an in-bounds point it overwrites both
coordinates and sets the flag. -/
theorem stage_updateMousePosition_spec (offsets : List (Int × Int)) (pageX pageY : Int)
    (s : StageState) :
    (¬ Stage.inBoundsPoint s (Stage.localPoint offsets pageX pageY) →
      (Stage.updateMousePosition offsets pageX pageY s).mouseX = s.mouseX ∧
      (Stage.updateMousePosition offsets pageX pageY s).mouseY = s.mouseY ∧
      (Stage.updateMousePosition offsets pageX pageY s).mouseInBounds = false) ∧
    (Stage.inBoundsPoint s (Stage.localPoint offsets pageX pageY) →
      (Stage.updateMousePosition offsets pageX pageY s).mouseX =
        some (Stage.localPoint offsets pageX pageY).1 ∧
      (Stage.updateMousePosition offsets pageX pageY s).mouseY =
        some (Stage.localPoint offsets pageX pageY).2 ∧
      (Stage.updateMousePosition offsets pageX pageY s).mouseInBounds = true) := by
  constructor
  · intro h
    unfold Stage.updateMousePosition
    dsimp only
    rw [if_neg h]
    exact ⟨rfl, rfl, rfl⟩
  · intro h
    unfold Stage.updateMousePosition
    dsimp only
    rw [if_pos h]
    exact ⟨rfl, rfl, rfl⟩

/-- C10 witness: page point (2,3) against a canvas offset by (5,5) maps to
(-3,-2), out of bounds: the stored position stays (10,10) and only the
flag drops. -/
theorem stage_updateMousePosition_spec_witness :
    (Stage.updateMousePosition [(5, 5)] 2 3 stageEx).mouseX = stageEx.mouseX ∧
    (Stage.updateMousePosition [(5, 5)] 2 3 stageEx).mouseY = stageEx.mouseY ∧
    (Stage.updateMousePosition [(5, 5)] 2 3 stageEx).mouseInBounds = false :=
  (stage_updateMousePosition_spec [(5, 5)] 2 3 stageEx).1 (by decide)

/-- C9: `ColorMatrixFilter.applyFilter` returns `false` and leaves the
target unwritten when the source read-back raises a security exception
(the try/catch), and otherwise applies the color matrix to every pixel,
writes the result, and returns `true`; being a total function, it never
propagates the exception. -/
theorem colorMatrixFilter_applyFilter_catches (mtx : List ℚ)
    (getImageData : Option (List Pixel)) :
    (getImageData = none →
      ColorMatrixFilter.applyFilter mtx getImageData = (false, none)) ∧
    (∀ d, getImageData = some d →
      ColorMatrixFilter.applyFilter mtx getImageData =
        (true, some (d.map (ColorMatrixFilter.transformPixel mtx)))) := by
  constructor
  · rintro rfl
    rfl
  · rintro d rfl
    rfl

/-- C9 witness: a denied read-back on a concrete matrix returns `false`
with no target write. -/
theorem colorMatrixFilter_applyFilter_catches_witness :
    ColorMatrixFilter.applyFilter [1] none = (false, none) :=
  (colorMatrixFilter_applyFilter_catches [1] none).1 rfl

end EaselJS
